import Mathlib

/-
Formal model of the core modules of the Charli3 cardano-api-trading-view-demo
repository:

* `ApiErrorHandler.analyzeError`  (src/utils/error-handler.ts)
* `APIQueue`                      (src/services/api-queue.ts)
* `CacheManager`                  (src/cache/manager.ts)
* `TokenService`                  (src/services/token-service.ts)
* `TokenStreamManager`            (src/stream.ts)

The TypeScript sources are translated into executable Lean definitions.
JavaScript's single-threaded cooperative scheduling is modelled by treating
every synchronous run (code between `await` suspension points) as one atomic
step; asynchronous completions (promise settlement, `setTimeout` callbacks)
are explicit events.  `Date.now()` becomes an explicit `now : Nat` parameter,
and every outbound `fetch` becomes an explicit outcome parameter.
-/

/-! ## String helpers

JavaScript's `String.prototype.includes` and `String.prototype.toLowerCase`
modelled over `List Char`. -/

def leadsWith : List Char → List Char → Bool
  | [], _ => true
  | _ :: _, [] => false
  | a :: as, b :: bs => a == b && leadsWith as bs

def containsSeq (needle : List Char) : List Char → Bool
  | [] => needle.isEmpty
  | h :: t => leadsWith needle (h :: t) || containsSeq needle t

/-- JavaScript `url.includes(needle)`. -/
def jsIncludes (s needle : String) : Bool :=
  containsSeq needle.toList s.toList

/-- JavaScript `s.toLowerCase().includes(needle)`. -/
def lowerIncludes (s needle : String) : Bool :=
  containsSeq needle.toList (s.toList.map Char.toLower)

/-! ## Error classifier (src/utils/error-handler.ts, `ApiErrorHandler.analyzeError`) -/

inductive ErrorType
  | auth
  | addon
  | network
  | unknown
deriving DecidableEq, Repr

structure ApiErrorDetails where
  status : Nat
  message : String
  isAddonError : Bool
  errorType : ErrorType
deriving DecidableEq, Repr

/-- The 401 branch guard: `(url.includes('/stream') || url.includes('/tokens/stream')) &&
(responseText.toLowerCase().includes('addon') || ... 'subscription' || ... 'stream' || ... 'plan')` -/
def addonGuard401 (responseText url : String) : Bool :=
  (jsIncludes url "/stream" || jsIncludes url "/tokens/stream") &&
    (lowerIncludes responseText "addon" || lowerIncludes responseText "subscription" ||
      lowerIncludes responseText "stream" || lowerIncludes responseText "plan")

/-- The 403 branch guard: `url.includes('/stream') || responseText.toLowerCase().includes('addon')
|| ... 'subscription' || ... 'plan'` -/
def addonGuard403 (responseText url : String) : Bool :=
  jsIncludes url "/stream" || lowerIncludes responseText "addon" ||
    lowerIncludes responseText "subscription" || lowerIncludes responseText "plan"

/-- Model of `ApiErrorHandler.analyzeError(status, responseText, url)`.  The initial
`message` is `responseText || 'Unknown error occurred'`; each branch of the
status dispatch overwrites `errorType` / `isAddonError` / `message` exactly as
the source does. -/
def ApiErrorHandler.analyzeError (status : Nat) (responseText url : String) :
    ApiErrorDetails :=
  let message := if responseText = "" then "Unknown error occurred" else responseText
  if status = 401 then
    if addonGuard401 responseText url then
      { status := status,
        message := "Stream access requires a paid addon. Your API key is valid but lacks streaming permissions.",
        isAddonError := true, errorType := .addon }
    else
      { status := status,
        message := "Invalid API key. Please check your authentication token.",
        isAddonError := false, errorType := .auth }
  else if status = 403 then
    if addonGuard403 responseText url then
      { status := status,
        message := "This feature requires a paid addon. Please upgrade your plan to access streaming data.",
        isAddonError := true, errorType := .addon }
    else
      { status := status,
        message := "Access denied. Please check your API key permissions.",
        isAddonError := false, errorType := .auth }
  else if status = 429 then
    { status := status,
      message := "Rate limit exceeded. Please wait before making more requests.",
      isAddonError := false, errorType := .network }
  else if 500 ≤ status then
    { status := status, message := "Server error. Please try again later.",
      isAddonError := false, errorType := .network }
  else if 400 ≤ status then
    { status := status,
      message := "Request failed with status " ++ toString status ++ ": " ++ responseText,
      isAddonError := false, errorType := .network }
  else
    { status := status, message := message, isAddonError := false, errorType := .unknown }

/-- Claim C5: the error classifier is a pure first-match-wins decision table.
For status 401 it returns `addon` with `isAddonError = true` exactly when the
url indicates a streaming endpoint and the body case-insensitively mentions
addon/subscription/stream/plan, otherwise `auth` with `isAddonError = false`;
for 403 it returns `addon` exactly when the url indicates streaming or the
body mentions addon/subscription/plan, otherwise `auth`; for 429, for
statuses ≥ 500 and for any other status ≥ 400 it returns `network` with
`isAddonError = false`.  In particular
`classify(401, "no addon access for stream plan", ".../tokens/stream")`
yields addon/true and `classify(401, "bad token", "/api/v1/symbol_info")`
yields auth. -/
theorem claim_C5_classifier_table :
    (∀ body url,
      ((ApiErrorHandler.analyzeError 401 body url).errorType = ErrorType.addon ∧
        (ApiErrorHandler.analyzeError 401 body url).isAddonError = true) ↔
        addonGuard401 body url = true) ∧
    (∀ body url, addonGuard401 body url = false →
      (ApiErrorHandler.analyzeError 401 body url).errorType = ErrorType.auth ∧
        (ApiErrorHandler.analyzeError 401 body url).isAddonError = false) ∧
    (∀ body url,
      ((ApiErrorHandler.analyzeError 403 body url).errorType = ErrorType.addon ∧
        (ApiErrorHandler.analyzeError 403 body url).isAddonError = true) ↔
        addonGuard403 body url = true) ∧
    (∀ body url, addonGuard403 body url = false →
      (ApiErrorHandler.analyzeError 403 body url).errorType = ErrorType.auth ∧
        (ApiErrorHandler.analyzeError 403 body url).isAddonError = false) ∧
    (∀ body url,
      (ApiErrorHandler.analyzeError 429 body url).errorType = ErrorType.network ∧
        (ApiErrorHandler.analyzeError 429 body url).isAddonError = false) ∧
    (∀ status body url, 500 ≤ status →
      (ApiErrorHandler.analyzeError status body url).errorType = ErrorType.network ∧
        (ApiErrorHandler.analyzeError status body url).isAddonError = false) ∧
    (∀ status body url, 400 ≤ status → status ≠ 401 → status ≠ 403 → status ≠ 429 →
      (ApiErrorHandler.analyzeError status body url).errorType = ErrorType.network ∧
        (ApiErrorHandler.analyzeError status body url).isAddonError = false) ∧
    ((ApiErrorHandler.analyzeError 401 "no addon access for stream plan"
        "https://api.charli3.io/api/v1/tokens/stream").errorType = ErrorType.addon ∧
      (ApiErrorHandler.analyzeError 401 "no addon access for stream plan"
        "https://api.charli3.io/api/v1/tokens/stream").isAddonError = true) ∧
    ((ApiErrorHandler.analyzeError 401 "bad token"
        "/api/v1/symbol_info").errorType = ErrorType.auth ∧
      (ApiErrorHandler.analyzeError 401 "bad token"
        "/api/v1/symbol_info").isAddonError = false) := by
  refine ⟨?_, ?_, ?_, ?_, ?_, ?_, ?_, ?_, ?_⟩
  · intro body url
    cases h : addonGuard401 body url <;>
      simp [ApiErrorHandler.analyzeError, h]
  · intro body url h
    simp [ApiErrorHandler.analyzeError, h]
  · intro body url
    cases h : addonGuard403 body url <;>
      simp [ApiErrorHandler.analyzeError, h]
  · intro body url h
    simp [ApiErrorHandler.analyzeError, h]
  · intro body url
    simp [ApiErrorHandler.analyzeError]
  · intro status body url h
    have h1 : status ≠ 401 := by omega
    have h3 : status ≠ 403 := by omega
    have h9 : status ≠ 429 := by omega
    simp [ApiErrorHandler.analyzeError, h, h1, h3, h9]
  · intro status body url h0 h1 h3 h9
    by_cases h5 : 500 ≤ status
    · simp [ApiErrorHandler.analyzeError, h1, h3, h9, h5]
    · simp [ApiErrorHandler.analyzeError, h0, h1, h3, h9, h5]
  · constructor <;> decide
  · constructor <;> decide

/-- Witness for C5: concrete instances discharging each hypothesis. -/
theorem claim_C5_classifier_table_witness :
    (addonGuard401 "bad token" "/api/v1/symbol_info" = false ∧
      (ApiErrorHandler.analyzeError 401 "bad token" "/api/v1/symbol_info").errorType =
        ErrorType.auth ∧
      (ApiErrorHandler.analyzeError 401 "bad token" "/api/v1/symbol_info").isAddonError =
        false) ∧
    (addonGuard403 "forbidden" "/api/v1/symbol_info" = false ∧
      (ApiErrorHandler.analyzeError 403 "forbidden" "/api/v1/symbol_info").errorType =
        ErrorType.auth) ∧
    ((500:Nat) ≤ 503 ∧
      (ApiErrorHandler.analyzeError 503 "oops" "/api/v1/x").errorType = ErrorType.network) ∧
    ((400:Nat) ≤ 404 ∧
      (ApiErrorHandler.analyzeError 404 "not found" "/api/v1/x").errorType =
        ErrorType.network) :=
  ⟨⟨by decide, claim_C5_classifier_table.2.1 "bad token" "/api/v1/symbol_info" (by decide)⟩,
    ⟨by decide,
      (claim_C5_classifier_table.2.2.2.1 "forbidden" "/api/v1/symbol_info" (by decide)).1⟩,
    ⟨by decide,
      (claim_C5_classifier_table.2.2.2.2.2.1 503 "oops" "/api/v1/x" (by decide)).1⟩,
    ⟨by decide,
      (claim_C5_classifier_table.2.2.2.2.2.2.1 404 "not found" "/api/v1/x" (by decide)
        (by decide) (by decide) (by decide)).1⟩⟩

/-- Claim C10: for every status strictly below 400 the classifier returns
category `unknown` with `isAddonError = false` and a message equal to the
given response text, or `"Unknown error occurred"` when the response text is
empty. -/
theorem claim_C10_classifier_below_400 :
    ∀ status body url, status < 400 →
      ApiErrorHandler.analyzeError status body url =
        { status := status,
          message := if body = "" then "Unknown error occurred" else body,
          isAddonError := false, errorType := ErrorType.unknown } := by
  intro status body url h
  have h1 : status ≠ 401 := by omega
  have h3 : status ≠ 403 := by omega
  have h9 : status ≠ 429 := by omega
  have h5 : ¬ 500 ≤ status := by omega
  have h0 : ¬ 400 ≤ status := by omega
  simp [ApiErrorHandler.analyzeError, h1, h3, h9, h5, h0]

/-- Witness for C10 at a concrete input (status 200, empty body). -/
theorem claim_C10_classifier_below_400_witness :
    (200:Nat) < 400 ∧
      ApiErrorHandler.analyzeError 200 "" "/api/v1/x" =
        { status := 200, message := "Unknown error occurred",
          isAddonError := false, errorType := ErrorType.unknown } :=
  ⟨by decide, claim_C10_classifier_below_400 200 "" "/api/v1/x" (by decide)⟩

/-! ## Request dispatcher (src/services/api-queue.ts, `APIQueue`)

`add` pushes a wrapper task and triggers `process`; the `while` loop of
`process` contains no `await`, so one invocation of `process` is a single
atomic step that moves tasks from the FIFO queue into the active set while
`activeRequests < MAX_CONCURRENT_REQUESTS`.  A task's settlement (the wrapper
resolving/rejecting the caller's promise, then the `.finally` handler
decrementing `activeRequests` and re-invoking `process`) is a separate event.
Task outcomes are a function `ω : TaskId → Except String Nat` so that
rejecting operations are covered. -/

def MAX_CONCURRENT_REQUESTS : Nat := 5

abbrev TaskId := Nat

structure QueueState where
  queue : List TaskId
  active : List TaskId
  settled : List (TaskId × Except String Nat)
deriving Repr

def QueueState.init : QueueState := ⟨[], [], []⟩

/-- The drain loop of `APIQueue.process`: shift tasks off the queue and launch
them while `activeRequests < MAX_CONCURRENT_REQUESTS`. -/
def processGo (q a : List TaskId) : List TaskId × List TaskId :=
  match q with
  | [] => ([], a)
  | t :: ts =>
    if a.length < MAX_CONCURRENT_REQUESTS then processGo ts (a ++ [t])
    else (t :: ts, a)

def APIQueue.process (s : QueueState) : QueueState :=
  { s with queue := (processGo s.queue s.active).1,
           active := (processGo s.queue s.active).2 }

/-- Model of `APIQueue.add`: append the wrapper to the queue, then `void this.process()`. -/
def APIQueue.add (s : QueueState) (t : TaskId) : QueueState :=
  APIQueue.process { s with queue := s.queue ++ [t] }

/-- Settlement of an active task `t`: the wrapper resolves/rejects the caller's
promise with `ω t`, the `.finally` handler decrements `activeRequests` and
re-invokes `process`. -/
def APIQueue.settleTask (ω : TaskId → Except String Nat) (s : QueueState)
    (t : TaskId) : QueueState :=
  if t ∈ s.active then
    APIQueue.process { s with active := s.active.erase t,
                              settled := s.settled ++ [(t, ω t)] }
  else s

inductive QueueEvent
  | add (t : TaskId)
  | settle (t : TaskId)

def queueStep (ω : TaskId → Except String Nat) (s : QueueState) :
    QueueEvent → QueueState
  | .add t => APIQueue.add s t
  | .settle t => APIQueue.settleTask ω s t

def queueRun (ω : TaskId → Except String Nat) (s : QueueState)
    (es : List QueueEvent) : QueueState :=
  es.foldl (queueStep ω) s

def addAll (s : QueueState) (ts : List TaskId) : QueueState :=
  ts.foldl APIQueue.add s

/-- Fuel-indexed executor that repeatedly settles the oldest active task; each
settlement re-triggers `process`, which is how the dispatcher drains. -/
def settleAllFuel (ω : TaskId → Except String Nat) : Nat → QueueState → QueueState
  | 0, s => s
  | n + 1, s =>
    match s.active with
    | [] => s
    | t :: _ => settleAllFuel ω n (APIQueue.settleTask ω s t)

theorem processGo_append (q : List TaskId) :
    ∀ a, (processGo q a).2 ++ (processGo q a).1 = a ++ q := by
  induction q with
  | nil => intro a; simp [processGo]
  | cons t ts ih =>
    intro a
    by_cases h : a.length < MAX_CONCURRENT_REQUESTS
    · simp only [processGo, if_pos h]
      rw [ih (a ++ [t])]
      simp
    · simp [processGo, if_neg h]

theorem processGo_length_le (q : List TaskId) :
    ∀ a, a.length ≤ MAX_CONCURRENT_REQUESTS →
      (processGo q a).2.length ≤ MAX_CONCURRENT_REQUESTS := by
  induction q with
  | nil => intro a ha; simpa [processGo] using ha
  | cons t ts ih =>
    intro a ha
    by_cases h : a.length < MAX_CONCURRENT_REQUESTS
    · simp only [processGo, if_pos h]
      exact ih (a ++ [t]) (by simpa using h)
    · simpa [processGo, if_neg h] using ha

theorem processGo_drained (q : List TaskId) :
    ∀ a, (processGo q a).1 ≠ [] →
      MAX_CONCURRENT_REQUESTS ≤ (processGo q a).2.length := by
  induction q with
  | nil => intro a h; simp [processGo] at h
  | cons t ts ih =>
    intro a h
    by_cases hl : a.length < MAX_CONCURRENT_REQUESTS
    · simp only [processGo, if_pos hl] at h ⊢
      exact ih (a ++ [t]) h
    · simpa [processGo, if_neg hl] using Nat.le_of_not_lt hl

/-- A state is drained when a non-empty queue forces a full active set. -/
def Drained (s : QueueState) : Prop :=
  s.queue ≠ [] → MAX_CONCURRENT_REQUESTS ≤ s.active.length

theorem process_drained (s : QueueState) : Drained (APIQueue.process s) := by
  intro h
  exact processGo_drained s.queue s.active h

theorem process_active_le (s : QueueState)
    (h : s.active.length ≤ MAX_CONCURRENT_REQUESTS) :
    (APIQueue.process s).active.length ≤ MAX_CONCURRENT_REQUESTS :=
  processGo_length_le s.queue s.active h

theorem step_active_le (ω : TaskId → Except String Nat) (s : QueueState)
    (e : QueueEvent) (h : s.active.length ≤ MAX_CONCURRENT_REQUESTS) :
    (queueStep ω s e).active.length ≤ MAX_CONCURRENT_REQUESTS := by
  cases e with
  | add t => exact process_active_le _ h
  | settle t =>
    show (APIQueue.settleTask ω s t).active.length ≤ MAX_CONCURRENT_REQUESTS
    unfold APIQueue.settleTask
    by_cases hm : t ∈ s.active
    · rw [if_pos hm]
      exact process_active_le _
        (le_trans (List.Sublist.length_le (List.erase_sublist t s.active)) h)
    · rw [if_neg hm]; exact h

theorem queueRun_active_le (ω : TaskId → Except String Nat)
    (es : List QueueEvent) :
    ∀ s, s.active.length ≤ MAX_CONCURRENT_REQUESTS →
      (queueRun ω s es).active.length ≤ MAX_CONCURRENT_REQUESTS := by
  induction es with
  | nil => intro s h; exact h
  | cons e es ih =>
    intro s h
    exact ih (queueStep ω s e) (step_active_le ω s e h)

theorem addAll_settled (ts : List TaskId) :
    ∀ s, (addAll s ts).settled = s.settled := by
  induction ts with
  | nil => intro s; rfl
  | cons t ts ih =>
    intro s
    show (addAll (APIQueue.add s t) ts).settled = s.settled
    rw [ih]
    rfl

theorem addAll_content (ts : List TaskId) :
    ∀ s, (addAll s ts).active ++ (addAll s ts).queue = s.active ++ s.queue ++ ts := by
  induction ts with
  | nil => intro s; simp [addAll]
  | cons t ts ih =>
    intro s
    show (addAll (APIQueue.add s t) ts).active ++ (addAll (APIQueue.add s t) ts).queue = _
    rw [ih]
    show (processGo (s.queue ++ [t]) s.active).2 ++ (processGo (s.queue ++ [t]) s.active).1 ++ ts = _
    rw [processGo_append]
    simp

theorem addAll_drained (ts : List TaskId) :
    ∀ s, Drained s → Drained (addAll s ts) := by
  induction ts with
  | nil => intro s h; exact h
  | cons t ts ih =>
    intro s _
    exact ih (APIQueue.add s t) (process_drained _)

theorem settleAllFuel_spec (ω : TaskId → Except String Nat) :
    ∀ n s, Drained s → s.active.length + s.queue.length = n →
      (settleAllFuel ω n s).settled =
          s.settled ++ (s.active ++ s.queue).map (fun t => (t, ω t)) ∧
        (settleAllFuel ω n s).active = [] ∧ (settleAllFuel ω n s).queue = [] := by
  intro n
  induction n with
  | zero =>
    intro s _ hn
    have ha : s.active = [] := List.eq_nil_of_length_eq_zero (by omega)
    have hq : s.queue = [] := List.eq_nil_of_length_eq_zero (by omega)
    simp [settleAllFuel, ha, hq]
  | succ n ih =>
    intro s hd hn
    match hA : s.active with
    | [] =>
      exfalso
      have hq : s.queue = [] := by
        by_contra hne
        have := hd hne
        rw [hA] at this
        simp [MAX_CONCURRENT_REQUESTS] at this
      rw [hA, hq] at hn
      simp at hn
    | t :: rest =>
      have hmem : t ∈ s.active := by rw [hA]; exact List.mem_cons_self t rest
      have hstep : APIQueue.settleTask ω s t =
          APIQueue.process { s with active := s.active.erase t,
                                    settled := s.settled ++ [(t, ω t)] } := by
        unfold APIQueue.settleTask
        rw [if_pos hmem]
      have herase : s.active.erase t = rest := by
        rw [hA]; exact List.erase_cons_head t rest
      have hcontent : (APIQueue.settleTask ω s t).active ++
          (APIQueue.settleTask ω s t).queue = rest ++ s.queue := by
        rw [hstep]
        show (processGo s.queue (s.active.erase t)).2 ++
          (processGo s.queue (s.active.erase t)).1 = rest ++ s.queue
        rw [processGo_append, herase]
      have hsettled : (APIQueue.settleTask ω s t).settled =
          s.settled ++ [(t, ω t)] := by
        rw [hstep]; rfl
      have hsum : (APIQueue.settleTask ω s t).active.length +
          (APIQueue.settleTask ω s t).queue.length = n := by
        have := congrArg List.length hcontent
        simp only [List.length_append] at this
        have hrest : rest.length + 1 = s.active.length := by
          rw [hA]; simp
        omega
      have hdrained : Drained (APIQueue.settleTask ω s t) := by
        rw [hstep]; exact process_drained _
      have := ih (APIQueue.settleTask ω s t) hdrained hsum
      have hstepFuel : settleAllFuel ω (n + 1) s =
          settleAllFuel ω n (APIQueue.settleTask ω s t) := by
        simp only [settleAllFuel, hA]
      rw [hstepFuel]
      refine ⟨?_, this.2.1, this.2.2⟩
      rw [this.1, hsettled, hcontent]
      simp

/-- Claim C1: for every finite sequence of operations submitted via `add`
(and arbitrary settlement interleavings), at no instant are more than
`MAX_CONCURRENT_REQUESTS = 5` operations simultaneously active, and when every
launched operation eventually settles (with success or failure), all enqueued
operations are eventually settled: after enqueueing `ts` and running the
drain, the queue and the active set are empty and exactly `ts.length` promises
have settled, whatever the outcome function. -/
theorem claim_C1_dispatcher_bound_and_settlement :
    (∀ (ω : TaskId → Except String Nat) (es : List QueueEvent),
      (queueRun ω QueueState.init es).active.length ≤ MAX_CONCURRENT_REQUESTS) ∧
    (∀ (ω : TaskId → Except String Nat) (ts : List TaskId),
      (settleAllFuel ω ts.length (addAll QueueState.init ts)).active = [] ∧
        (settleAllFuel ω ts.length (addAll QueueState.init ts)).queue = [] ∧
        (settleAllFuel ω ts.length (addAll QueueState.init ts)).settled.length =
          ts.length) := by
  constructor
  · intro ω es
    exact queueRun_active_le ω es QueueState.init (by simp [QueueState.init, MAX_CONCURRENT_REQUESTS])
  · intro ω ts
    have hd : Drained (addAll QueueState.init ts) :=
      addAll_drained ts QueueState.init (by intro h; simp [QueueState.init] at h)
    have hsum : (addAll QueueState.init ts).active.length +
        (addAll QueueState.init ts).queue.length = ts.length := by
      have := congrArg List.length (addAll_content ts QueueState.init)
      simp only [List.length_append] at this
      simpa [QueueState.init] using this
    have hspec := settleAllFuel_spec ω ts.length (addAll QueueState.init ts) hd hsum
    refine ⟨hspec.2.1, hspec.2.2, ?_⟩
    rw [hspec.1, addAll_settled, addAll_content]
    simp [QueueState.init]

/-- Claim C9: after enqueueing the operations `ts` and draining, the settled
list is exactly `ts`, in order, each paired with its own outcome `ω t`: every
promise settles exactly once with the operation's own result or error, the
dispatcher adds no error semantics, and a rejecting operation (any `t` with
`ω t = .error e`) does not prevent the remaining queued operations from being
dispatched and settled. -/
theorem claim_C9_dispatcher_outcome_fidelity :
    ∀ (ω : TaskId → Except String Nat) (ts : List TaskId),
      (settleAllFuel ω ts.length (addAll QueueState.init ts)).settled =
        ts.map (fun t => (t, ω t)) := by
  intro ω ts
  have hd : Drained (addAll QueueState.init ts) :=
    addAll_drained ts QueueState.init (by intro h; simp [QueueState.init] at h)
  have hsum : (addAll QueueState.init ts).active.length +
      (addAll QueueState.init ts).queue.length = ts.length := by
    have := congrArg List.length (addAll_content ts QueueState.init)
    simp only [List.length_append] at this
    simpa [QueueState.init] using this
  have hspec := settleAllFuel_spec ω ts.length (addAll QueueState.init ts) hd hsum
  rw [hspec.1, addAll_settled, addAll_content]
  simp [QueueState.init]

/-! ## Association-list primitives

IndexedDB object stores modelled as association lists with unique keys:
`aget` is `db.get`, `aput` is `db.put` (overwrite semantics), `adel` is
`db.delete`. -/

def aget {κ ν : Type} [DecidableEq κ] : List (κ × ν) → κ → Option ν
  | [], _ => none
  | p :: t, k => if p.1 = k then some p.2 else aget t k

def adel {κ ν : Type} [DecidableEq κ] : List (κ × ν) → κ → List (κ × ν)
  | [], _ => []
  | p :: t, k => if p.1 = k then adel t k else p :: adel t k

def aput {κ ν : Type} [DecidableEq κ] (l : List (κ × ν)) (k : κ) (v : ν) :
    List (κ × ν) :=
  adel l k ++ [(k, v)]

theorem aget_append_none {κ ν : Type} [DecidableEq κ] (l₁ l₂ : List (κ × ν))
    (k : κ) (h : aget l₁ k = none) : aget (l₁ ++ l₂) k = aget l₂ k := by
  induction l₁ with
  | nil => rfl
  | cons p t ih =>
    by_cases hp : p.1 = k
    · simp [aget, hp] at h
    · simp only [aget, if_neg hp] at h
      simp only [List.cons_append, aget, if_neg hp]
      exact ih h

theorem aget_append_tail_none {κ ν : Type} [DecidableEq κ] (l₁ l₂ : List (κ × ν))
    (k : κ) (h : aget l₂ k = none) : aget (l₁ ++ l₂) k = aget l₁ k := by
  induction l₁ with
  | nil => simpa using h
  | cons p t ih =>
    by_cases hp : p.1 = k
    · simp [aget, hp]
    · simp only [List.cons_append, aget, if_neg hp]
      exact ih

theorem aget_adel_self {κ ν : Type} [DecidableEq κ] (l : List (κ × ν)) (k : κ) :
    aget (adel l k) k = none := by
  induction l with
  | nil => rfl
  | cons p t ih =>
    by_cases h : p.1 = k
    · simp [adel, h, ih]
    · simp [adel, aget, h, ih]

theorem aget_adel_ne {κ ν : Type} [DecidableEq κ] (l : List (κ × ν)) (k k' : κ)
    (h : k' ≠ k) : aget (adel l k) k' = aget l k' := by
  induction l with
  | nil => rfl
  | cons p t ih =>
    by_cases hp : p.1 = k
    · simp [adel, hp, aget, ih, Ne.symm h]
    · simp [adel, hp, aget, ih]

theorem aget_aput_self {κ ν : Type} [DecidableEq κ] (l : List (κ × ν)) (k : κ)
    (v : ν) : aget (aput l k v) k = some v := by
  rw [aput, aget_append_none _ _ _ (aget_adel_self l k)]
  simp [aget]

theorem aget_aput_ne {κ ν : Type} [DecidableEq κ] (l : List (κ × ν)) (k k' : κ)
    (v : ν) (h : k' ≠ k) : aget (aput l k v) k' = aget l k' := by
  rw [aput, aget_append_tail_none _ _ _ (by simp [aget, Ne.symm h])]
  exact aget_adel_ne l k k' h

theorem adel_of_no_key {κ ν : Type} [DecidableEq κ] (l : List (κ × ν)) (k : κ)
    (h : ∀ p ∈ l, p.1 ≠ k) : adel l k = l := by
  induction l with
  | nil => rfl
  | cons p t ih =>
    have hp : p.1 ≠ k := h p (List.mem_cons_self p t)
    simp only [adel, if_neg hp]
    rw [ih fun q hq => h q (List.mem_cons_of_mem p hq)]

/-! ## Cache manager (src/cache/manager.ts, `CacheManager`)

Stored values are opaque blobs; `Value.jsNull` stands for a stored JavaScript
`null`/falsy value so that the callers' truthiness checks are representable.
All three durable object stores plus the metadata store live in one
`CacheState`, together with the in-process `memoryCache` map.  `Date.now()`
is the explicit `now` argument. -/

inductive Value
  | obj (payload : String)
  | jsNull
deriving DecidableEq, Repr

def truthy : Value → Bool
  | .obj _ => true
  | .jsNull => false

structure MetaRecord where
  timestamp : Nat
  expiry : Nat
  key : String
  store : String
deriving DecidableEq, Repr

structure CacheState where
  data : List ((String × String) × Value)
  metadata : List (String × MetaRecord)
  memory : List (String × (Value × Nat))
deriving DecidableEq, Repr

def emptyCache : CacheState := ⟨[], [], []⟩

/-- The metadata record key: `` `${store}_${key}` ``. -/
def metaKey (store key : String) : String := store ++ "_" ++ key

def CacheManager.get (s : CacheState) (store key : String) : Option Value :=
  aget s.data (store, key)

/-- Model of `setWithExpiry(store, key, value, expiry)`: put the value, then put the
paired metadata record `{ timestamp: Date.now(), expiry: Date.now() + expiry,
key, store }` under `` `${store}_${key}` ``. -/
def CacheManager.setWithExpiry (s : CacheState) (now : Nat) (store key : String)
    (v : Value) (expiry : Nat) : CacheState :=
  { s with data := aput s.data (store, key) v,
           metadata := aput s.metadata (metaKey store key)
             { timestamp := now, expiry := now + expiry, key := key, store := store } }

/-- Model of `isExpired(store, key)`: true when no metadata record exists, otherwise
`Date.now() > metadata.expiry`. -/
def CacheManager.isExpired (s : CacheState) (now : Nat) (store key : String) :
    Bool :=
  match aget s.metadata (metaKey store key) with
  | none => true
  | some m => decide (m.expiry < now)

/-- Claim C2: for all `(store, key, value, ttl)` with `ttl > 0`, immediately
after `setWithExpiry` the entry is not expired and `get` returns the value;
once the current time exceeds `write time + ttl`, `isExpired` is true; and
`isExpired` is true whenever no metadata record exists for `` `${store}_${key}` ``
(missing and expired are conflated). -/
theorem claim_C2_cache_expiry :
    (∀ (s : CacheState) (now : Nat) (store key : String) (v : Value) (ttl : Nat),
      0 < ttl →
        CacheManager.isExpired (CacheManager.setWithExpiry s now store key v ttl)
            now store key = false ∧
          CacheManager.get (CacheManager.setWithExpiry s now store key v ttl)
            store key = some v ∧
          (∀ t, now + ttl < t →
            CacheManager.isExpired (CacheManager.setWithExpiry s now store key v ttl)
              t store key = true)) ∧
    (∀ (s : CacheState) (now : Nat) (store key : String),
      aget s.metadata (metaKey store key) = none →
        CacheManager.isExpired s now store key = true) := by
  constructor
  · intro s now store key v ttl _
    refine ⟨?_, ?_, ?_⟩
    · unfold CacheManager.isExpired CacheManager.setWithExpiry
      simp only [aget_aput_self]
      simp
    · unfold CacheManager.get CacheManager.setWithExpiry
      simp only [aget_aput_self]
    · intro t ht
      unfold CacheManager.isExpired CacheManager.setWithExpiry
      simp only [aget_aput_self]
      simpa using ht
  · intro s now store key h
    unfold CacheManager.isExpired
    rw [h]

/-- Witness for C2 at a concrete store/key/value/ttl. -/
theorem claim_C2_cache_expiry_witness :
    ((0:Nat) < 5 ∧
      CacheManager.isExpired
        (CacheManager.setWithExpiry emptyCache 0 "symbols" "Aggregate" (Value.obj "d") 5)
        0 "symbols" "Aggregate" = false ∧
      CacheManager.get
        (CacheManager.setWithExpiry emptyCache 0 "symbols" "Aggregate" (Value.obj "d") 5)
        "symbols" "Aggregate" = some (Value.obj "d") ∧
      ((0:Nat) + 5 < 6 ∧
        CacheManager.isExpired
          (CacheManager.setWithExpiry emptyCache 0 "symbols" "Aggregate" (Value.obj "d") 5)
          6 "symbols" "Aggregate" = true)) ∧
    (aget emptyCache.metadata (metaKey "tokenCache" "k") = none ∧
      CacheManager.isExpired emptyCache 3 "tokenCache" "k" = true) := by
  have h := claim_C2_cache_expiry.1 emptyCache 0 "symbols" "Aggregate" (Value.obj "d") 5
    (by decide)
  exact ⟨⟨by decide, h.1, h.2.1, by decide, h.2.2 6 (by decide)⟩,
    ⟨by decide, claim_C2_cache_expiry.2 emptyCache 3 "tokenCache" "k" (by decide)⟩⟩

/-! ## Cache sweep (`CacheManager.clearExpired`)

The sweep snapshots `getAllKeys('cacheMetadata')`, then for each key re-reads
the metadata record and, when `Date.now() > expiry`, performs
`await db.delete(metadata.store, metadata.key)` followed by
`await db.delete('cacheMetadata', key)`.  Each awaited operation is a
suspension point, so the state after the data delete but before the metadata
delete is observable by an interleaved read; `clearExpiredGo` records every
state reached at those suspension points in its trace component, together
with the final state and the `clearedCount` result. -/

def clearExpiredGo (now : Nat) : List String → CacheState → Nat →
    List CacheState × CacheState × Nat
  | [], s, c => ([], s, c)
  | k :: ks, s, c =>
    match aget s.metadata k with
    | some m =>
      if m.expiry < now then
        let s1 : CacheState := { s with data := adel s.data (m.store, m.key) }
        let s2 : CacheState := { s1 with metadata := adel s1.metadata k }
        let r := clearExpiredGo now ks s2 (c + 1)
        (s1 :: s2 :: r.1, r.2.1, r.2.2)
      else
        clearExpiredGo now ks s c
    | none => clearExpiredGo now ks s c

/-- Model of `clearExpired()`: returns `clearedCount` and the final state. -/
def CacheManager.clearExpired (s : CacheState) (now : Nat) : Nat × CacheState :=
  ((clearExpiredGo now (s.metadata.map Prod.fst) s 0).2.2,
    (clearExpiredGo now (s.metadata.map Prod.fst) s 0).2.1)

/-- The states observable by an interleaved read at the suspension points
inside the deletion sequence of `clearExpired`. -/
def clearExpiredMidStates (s : CacheState) (now : Nat) : List CacheState :=
  (clearExpiredGo now (s.metadata.map Prod.fst) s 0).1

def sC8 : CacheState :=
  CacheManager.setWithExpiry emptyCache 0 "tokenCache" "k" (Value.obj "v") 10

def sC8mid : CacheState := (clearExpiredMidStates sC8 11).headD emptyCache

/-- Counterexample to claim C8: the two deletions of `clearExpired` are
separated by a suspension point.  Concretely, sweeping a cache holding one
expired entry (written at 0 with ttl 10, swept at 11) passes through an
observable intermediate state in which the data entry is already deleted
while its metadata record still exists — a half-deleted entry pair. -/
theorem claim_C8_counterexample :
    sC8mid ∈ clearExpiredMidStates sC8 11 ∧
      CacheManager.get sC8mid "tokenCache" "k" = none ∧
      aget sC8mid.metadata (metaKey "tokenCache" "k") =
        some { timestamp := 0, expiry := 10, key := "k", store := "tokenCache" } := by
  refine ⟨?_, ?_, ?_⟩ <;> decide

/-- Expiry test against a metadata list, as the re-read inside the sweep
performs it. -/
def expiredInMeta (meta : List (String × MetaRecord)) (now : Nat) (k : String) :
    Bool :=
  match aget meta k with
  | some m => decide (m.expiry < now)
  | none => false

theorem clearExpiredGo_count (now : Nat) :
    ∀ (ks : List String) (s : CacheState) (c : Nat), ks.Nodup →
      (clearExpiredGo now ks s c).2.2 =
        c + (ks.filter (fun k => expiredInMeta s.metadata now k)).length := by
  intro ks
  induction ks with
  | nil => intro s c _; simp [clearExpiredGo]
  | cons k ks ih =>
    intro s c hnd
    have hk : k ∉ ks := (List.nodup_cons.mp hnd).1
    have hnd' : ks.Nodup := (List.nodup_cons.mp hnd).2
    match hm : aget s.metadata k with
    | none =>
      have he : expiredInMeta s.metadata now k = false := by
        simp [expiredInMeta, hm]
      simp only [clearExpiredGo, hm]
      rw [ih s c hnd']
      simp [List.filter_cons, he]
    | some m =>
      by_cases hex : m.expiry < now
      · have he : expiredInMeta s.metadata now k = true := by
          simp [expiredInMeta, hm, hex]
        simp only [clearExpiredGo, hm, if_pos hex]
        have hcongr :
            ks.filter (fun k' =>
              expiredInMeta (adel s.metadata k) now k') =
            ks.filter (fun k' => expiredInMeta s.metadata now k') := by
          apply List.filter_congr
          intro k' hk'
          have hne : k' ≠ k := fun he' => hk (he' ▸ hk')
          simp [expiredInMeta, aget_adel_ne s.metadata k k' hne]
        rw [ih _ (c + 1) hnd']
        simp only [hcongr]
        simp [List.filter_cons, he]
        omega
      · have he : expiredInMeta s.metadata now k = false := by
          simp [expiredInMeta, hm, hex]
        simp only [clearExpiredGo, hm, if_neg hex]
        rw [ih s c hnd']
        simp [List.filter_cons, he]

theorem aget_adel_cases {κ ν : Type} [DecidableEq κ] (l : List (κ × ν))
    (k k' : κ) : aget (adel l k) k' = aget l k' ∨ aget (adel l k) k' = none := by
  by_cases h : k' = k
  · right; rw [h]; exact aget_adel_self l k
  · left; exact aget_adel_ne l k k' h

theorem clearExpiredGo_reads (now : Nat) :
    ∀ (ks : List String) (s : CacheState) (c : Nat) (st : CacheState),
      (st ∈ (clearExpiredGo now ks s c).1 ∨ st = (clearExpiredGo now ks s c).2.1) →
      ∀ dk : String × String,
        aget st.data dk = aget s.data dk ∨ aget st.data dk = none := by
  intro ks
  induction ks with
  | nil =>
    intro s c st hmem dk
    rcases hmem with h | h
    · simp [clearExpiredGo] at h
    · simp only [clearExpiredGo] at h
      rw [h]
      left; rfl
  | cons k ks ih =>
    intro s c st hmem dk
    match hm : aget s.metadata k with
    | none =>
      simp only [clearExpiredGo, hm] at hmem
      exact ih s c st hmem dk
    | some m =>
      by_cases hex : m.expiry < now
      · simp only [clearExpiredGo, hm, if_pos hex] at hmem
        set s1 : CacheState := { s with data := adel s.data (m.store, m.key) } with hs1
        set s2 : CacheState := { s1 with metadata := adel s1.metadata k } with hs2
        have hdel : ∀ u : CacheState, u.data = adel s.data (m.store, m.key) →
            aget u.data dk = aget s.data dk ∨ aget u.data dk = none := by
          intro u hu
          rw [hu]
          exact aget_adel_cases s.data (m.store, m.key) dk
        rcases hmem with h | h
        · rcases List.mem_cons.mp h with h1 | h'
          · exact hdel st (by rw [h1])
          · rcases List.mem_cons.mp h' with h2 | hrest
            · exact hdel st (by rw [h2])
            · rcases ih s2 (c + 1) st (Or.inl hrest) dk with hcase | hcase
              · rcases hdel s2 rfl with h2c | h2c
                · left; rw [hcase, h2c]
                · right; rw [hcase, h2c]
              · right; exact hcase
        · rcases ih s2 (c + 1) st (Or.inr h) dk with hcase | hcase
          · rcases hdel s2 rfl with h2c | h2c
            · left; rw [hcase, h2c]
            · right; rw [hcase, h2c]
          · right; exact hcase
      · simp only [clearExpiredGo, hm, if_neg hex] at hmem
        exact ih s c st hmem dk

theorem mapfst_filter_expired (now : Nat) :
    ∀ meta : List (String × MetaRecord), (meta.map Prod.fst).Nodup →
      ((meta.map Prod.fst).filter (fun k => expiredInMeta meta now k)).length =
        (meta.filter (fun p => decide (p.2.expiry < now))).length := by
  intro meta
  induction meta with
  | nil => intro _; rfl
  | cons p rest ih =>
    intro hnd
    have hk : p.1 ∉ rest.map Prod.fst := (List.nodup_cons.mp hnd).1
    have hnd' : (rest.map Prod.fst).Nodup := (List.nodup_cons.mp hnd).2
    have hhead : expiredInMeta (p :: rest) now p.1 = decide (p.2.expiry < now) := by
      simp [expiredInMeta, aget]
    have hcongr :
        (rest.map Prod.fst).filter (fun k => expiredInMeta (p :: rest) now k) =
          (rest.map Prod.fst).filter (fun k => expiredInMeta rest now k) := by
      apply List.filter_congr
      intro k' hk'
      have hne : p.1 ≠ k' := fun he => hk (he ▸ hk')
      simp [expiredInMeta, aget, hne]
    by_cases hex : p.2.expiry < now
    · simp [List.filter_cons, hhead, hex, hcongr, ih hnd']
    · simp [List.filter_cons, hhead, hex, hcongr, ih hnd']

/-- Claim C8 (amended): `clearExpired` deletes each expired data entry and
then its metadata record as two separately awaited operations with a
suspension point between them, so an interleaved read can observe the data
entry absent while the expired metadata record still exists; a single read
nevertheless always yields either the old value or absence, never a torn
value; and `clearExpired` returns the number of expired entries removed. -/
theorem claim_C8_amended_sweep :
    (∀ (s : CacheState) (now : Nat), (s.metadata.map Prod.fst).Nodup →
      (CacheManager.clearExpired s now).1 =
        (s.metadata.filter (fun p => decide (p.2.expiry < now))).length) ∧
    (∀ (s : CacheState) (now : Nat) (st : CacheState),
      (st ∈ clearExpiredMidStates s now ∨ st = (CacheManager.clearExpired s now).2) →
      ∀ store key : String,
        CacheManager.get st store key = CacheManager.get s store key ∨
          CacheManager.get st store key = none) := by
  constructor
  · intro s now hnd
    show (clearExpiredGo now (s.metadata.map Prod.fst) s 0).2.2 = _
    rw [clearExpiredGo_count now (s.metadata.map Prod.fst) s 0 hnd]
    rw [mapfst_filter_expired now s.metadata hnd]
    simp
  · intro s now st hmem store key
    exact clearExpiredGo_reads now (s.metadata.map Prod.fst) s 0 st hmem (store, key)

/-- Witness for the amended C8 at the concrete one-entry cache: the sweep
removes 1 entry and its observable intermediate state yields the absent
value for the deleted key. -/
theorem claim_C8_amended_sweep_witness :
    ((sC8.metadata.map Prod.fst).Nodup ∧
      (CacheManager.clearExpired sC8 11).1 =
        (sC8.metadata.filter (fun p => decide (p.2.expiry < 11))).length) ∧
    ((sC8mid ∈ clearExpiredMidStates sC8 11 ∨
        sC8mid = (CacheManager.clearExpired sC8 11).2) ∧
      (CacheManager.get sC8mid "tokenCache" "k" = CacheManager.get sC8 "tokenCache" "k" ∨
        CacheManager.get sC8mid "tokenCache" "k" = none)) :=
  ⟨⟨by decide, claim_C8_amended_sweep.1 sC8 11 (by decide)⟩,
    ⟨Or.inl (by decide),
      claim_C8_amended_sweep.2 sC8 11 sC8mid (Or.inl (by decide)) "tokenCache" "k"⟩⟩

/-! ## Memory tier and data-service facade
(src/cache/manager.ts `setMemory`/`getMemory`,
src/services/token-service.ts `TokenService.getSymbols` /
`TokenService.getCurrentTokenData`)

The underlying fetch (`getSymbolInfo` / `fetchCurrentTokenData`) is an
explicit outcome parameter `fetchResult`; its `.error` case is the fetch
function rejecting. -/

def CACHE_CONFIG_SYMBOLS_EXPIRY : Nat := 30 * 60 * 1000

def CACHE_CONFIG_TOKEN_DATA_EXPIRY : Nat := 10 * 60 * 1000

def CacheManager.setMemory (s : CacheState) (now : Nat) (key : String)
    (v : Value) (expiry : Nat) : CacheState :=
  { s with memory := aput s.memory key (v, now + expiry) }

/-- Model of `getMemory`: returns the cached data, lazily evicting a stale entry. -/
def CacheManager.getMemory (s : CacheState) (now : Nat) (key : String) :
    Option Value × CacheState :=
  match aget s.memory key with
  | none => (none, s)
  | some (d, expiry) =>
    if expiry < now then (none, { s with memory := adel s.memory key })
    else (some d, s)

/-- The fetch-and-cache tail of `TokenService.getSymbols`: `await
getSymbolInfo(group)`, then `setWithExpiry('symbols', group, symbolsData,
CACHE_CONFIG.SYMBOLS_EXPIRY)`.  A rejecting fetch propagates (there is no
try/catch here). -/
def TokenService.getSymbolsFetch (s : CacheState) (now : Nat) (group : String) :
    Except String Value → Except String Value × CacheState
  | .error e => (.error e, s)
  | .ok v =>
    (.ok v, CacheManager.setWithExpiry s now "symbols" group v
      CACHE_CONFIG_SYMBOLS_EXPIRY)

/-- Model of `TokenService.getSymbols(group)`: serve from the durable cache when the
entry is unexpired and truthy, otherwise fetch and cache. -/
def TokenService.getSymbols (s : CacheState) (now : Nat) (group : String)
    (fetchResult : Except String Value) : Except String Value × CacheState :=
  if CacheManager.isExpired s now "symbols" group = false then
    match CacheManager.get s "symbols" group with
    | some cached =>
      if truthy cached then (.ok cached, s)
      else TokenService.getSymbolsFetch s now group fetchResult
    | none => TokenService.getSymbolsFetch s now group fetchResult
  else TokenService.getSymbolsFetch s now group fetchResult

/-- The queued operation inside `TokenService.getCurrentTokenData`: `try {
const data = await fetchCurrentTokenData(...); setMemory(...); return data }
catch (error) { console.error(...); return null }`.  The caller's promise
resolves with `null` when the fetch rejects. -/
def TokenService.tokenFetch (s : CacheState) (now : Nat) (cacheKey : String) :
    Except String Value → Except String (Option Value) × CacheState
  | .ok d =>
    (.ok (some d),
      CacheManager.setMemory s now cacheKey d CACHE_CONFIG_TOKEN_DATA_EXPIRY)
  | .error _ => (.ok none, s)

/-- Model of `TokenService.getCurrentTokenData(policyId, assetName)`: memory tier
first; on a truthy hit return it, otherwise run the queued fetch. -/
def TokenService.getCurrentTokenData (s : CacheState) (now : Nat)
    (policyId assetName : String) (fetchResult : Except String Value) :
    Except String (Option Value) × CacheState :=
  let cacheKey := policyId ++ assetName
  let m := CacheManager.getMemory s now cacheKey
  match m.1 with
  | some d =>
    if truthy d then (.ok (some d), m.2)
    else TokenService.tokenFetch m.2 now cacheKey fetchResult
  | none => TokenService.tokenFetch m.2 now cacheKey fetchResult

/-- Counterexample to claim C6: a failing fetch inside
`getCurrentTokenData` does not propagate to the caller — the promise
resolves with `null` (`.ok none`), the rejection is swallowed by the
internal catch.  (The cache is indeed left untouched.) -/
theorem claim_C6_counterexample :
    TokenService.getCurrentTokenData emptyCache 0 "p" "a"
        (Except.error "network down") =
      (Except.ok none, emptyCache) ∧
    (TokenService.getCurrentTokenData emptyCache 0 "p" "a"
        (Except.error "network down")).1 ≠ Except.error "network down" := by
  constructor
  · rfl
  · show Except.ok (none : Option Value) ≠ Except.error "network down"
    exact fun hcontra => Except.noConfusion hcontra

/-- Claim C6 (amended): when the underlying fetch fails, `getSymbols`
propagates the failure to its caller and writes nothing to any cache tier;
`getCurrentTokenData` resolves with `null` instead of propagating, and
likewise writes nothing to any cache tier (the whole state is unchanged in
both cases). -/
theorem claim_C6_amended_fetch_failure :
    (∀ (s : CacheState) (now : Nat) (group e : String),
      CacheManager.isExpired s now "symbols" group = true →
        TokenService.getSymbols s now group (.error e) = (.error e, s)) ∧
    (∀ (s : CacheState) (now : Nat) (policyId assetName e : String),
      aget s.memory (policyId ++ assetName) = none →
        TokenService.getCurrentTokenData s now policyId assetName (.error e) =
          (.ok none, s)) := by
  constructor
  · intro s now group e h
    unfold TokenService.getSymbols
    rw [h]
    simp [TokenService.getSymbolsFetch]
  · intro s now policyId assetName e h
    unfold TokenService.getCurrentTokenData
    simp only [CacheManager.getMemory, h]
    rfl

/-- Witness for the amended C6 on the empty cache. -/
theorem claim_C6_amended_fetch_failure_witness :
    (CacheManager.isExpired emptyCache 0 "symbols" "Aggregate" = true ∧
      TokenService.getSymbols emptyCache 0 "Aggregate" (.error "boom") =
        (.error "boom", emptyCache)) ∧
    (aget emptyCache.memory ("p" ++ "a") = none ∧
      TokenService.getCurrentTokenData emptyCache 0 "p" "a" (.error "boom") =
        (.ok none, emptyCache)) :=
  ⟨⟨by decide,
      claim_C6_amended_fetch_failure.1 emptyCache 0 "Aggregate" "boom" (by decide)⟩,
    ⟨by decide,
      claim_C6_amended_fetch_failure.2 emptyCache 0 "p" "a" "boom" (by decide)⟩⟩

/-! ## Streaming session manager (src/stream.ts, `TokenStreamManager`)

The manager's mutable fields become a `StreamState`.  One invocation of
`startStream` runs to its first suspension inside `processStream` (or to its
return), so a whole connection attempt with its outcome is one atomic step;
the outcome of the `fetch` (and of the subsequent read loop) is the explicit
`FetchOutcome` argument.  `setTimeout` callbacks scheduled by the catch block
are recorded in `pendingRetries` as `(captured poolId, delay ms)` pairs and
fire as separate events.  `updateStreamStatus` calls append to `statusLog`;
`ApiErrorHandler.displayErrorMessage` calls append to `shownMessages`; every
network attempt (a `fetch` actually issued) increments `fetchCount`. -/

inductive StreamStatus
  | connecting
  | connected
  | error
  | addonError
deriving DecidableEq, Repr

inductive FetchOutcome
  | ok
  | okThenStreamError
  | notOk (status : Nat) (body : String)
  | reject
deriving DecidableEq, Repr

structure StreamState where
  isConnected : Bool
  currentPoolId : Option String
  reconnectAttempts : Nat
  addonErrorAttempts : Nat
  isAddonErrorDetected : Bool
  pendingRetries : List (String × Nat)
  statusLog : List StreamStatus
  shownMessages : List String
  fetchCount : Nat
deriving DecidableEq, Repr

def streamInit : StreamState :=
  { isConnected := false, currentPoolId := none, reconnectAttempts := 0,
    addonErrorAttempts := 0, isAddonErrorDetected := false, pendingRetries := [],
    statusLog := [], shownMessages := [], fetchCount := 0 }

/-- The url passed to `analyzeError`:
`` `${APP_CONFIG.API_URL}/api/v1/tokens/stream` `` with the default base url. -/
def streamUrl : String := "https://api.charli3.io/api/v1/tokens/stream"

def pushStatus (s : StreamState) (st : StreamStatus) : StreamState :=
  { s with statusLog := s.statusLog ++ [st] }

def showMessage (s : StreamState) (msg : String) : StreamState :=
  { s with shownMessages := s.shownMessages ++ [msg] }

/-- Model of `stopStream()`: abort, clear connection state and the reconnect counter.
It does not touch the addon-error fields, and it does not cancel pending
`setTimeout` callbacks (those re-check `currentPoolId` when they fire). -/
def TokenStreamManager.stopStream (s : StreamState) : StreamState :=
  { s with isConnected := false, currentPoolId := none, reconnectAttempts := 0 }

/-- The catch block of `startStream`: mark disconnected, report `error`, and
if `reconnectAttempts < maxReconnectAttempts` schedule a retry after
`min(1000 * 2 ** reconnectAttempts, 30000)` ms and increment the counter. -/
def catchReconnect (s : StreamState) (poolId : String) : StreamState :=
  let s := pushStatus { s with isConnected := false } StreamStatus.error
  if s.reconnectAttempts < 5 then
    let delay := min (1000 * 2 ^ s.reconnectAttempts) 30000
    { s with reconnectAttempts := s.reconnectAttempts + 1,
             pendingRetries := s.pendingRetries ++ [(poolId, delay)] }
  else
    pushStatus s StreamStatus.error

/-- One invocation of `startStream(poolId)` whose connection attempt has
outcome `outcome`. -/
def TokenStreamManager.startStream (s : StreamState) (poolId : String)
    (outcome : FetchOutcome) : StreamState :=
  if s.isConnected = true ∧ s.currentPoolId = some poolId then s
  else
    let s := TokenStreamManager.stopStream s
    let s := { s with currentPoolId := some poolId }
    if s.isAddonErrorDetected then pushStatus s StreamStatus.addonError
    else
      let s := pushStatus s StreamStatus.connecting
      let s := { s with fetchCount := s.fetchCount + 1 }
      match outcome with
      | .reject => catchReconnect s poolId
      | .notOk status body =>
        let e := ApiErrorHandler.analyzeError status body streamUrl
        if e.isAddonError then
          let s := { s with addonErrorAttempts := s.addonErrorAttempts + 1 }
          if 2 ≤ s.addonErrorAttempts then
            pushStatus { s with isAddonErrorDetected := true } StreamStatus.addonError
          else
            catchReconnect (pushStatus s StreamStatus.addonError) poolId
        else if e.errorType = ErrorType.auth then
          catchReconnect
            (showMessage s "Invalid API key. Please check your configuration.") poolId
        else
          catchReconnect (showMessage s e.message) poolId
      | .ok =>
        pushStatus { s with isConnected := true, reconnectAttempts := 0 }
          StreamStatus.connected
      | .okThenStreamError =>
        let s := pushStatus { s with isConnected := true, reconnectAttempts := 0 }
          StreamStatus.connected
        let s := pushStatus { s with isConnected := false } StreamStatus.error
        catchReconnect s poolId

/-- The oldest pending `setTimeout` callback fires: retry only if
`currentPoolId` still equals the captured pool id. -/
def fireOldestRetry (s : StreamState) (outcome : FetchOutcome) : StreamState :=
  match s.pendingRetries with
  | [] => s
  | (pid, _) :: rest =>
    let s := { s with pendingRetries := rest }
    if s.currentPoolId = some pid then
      TokenStreamManager.startStream s pid outcome
    else s

/-- Model of `reconnect()`: manual reconnection, resetting `reconnectAttempts`. -/
def TokenStreamManager.reconnect (s : StreamState) (outcome : FetchOutcome) :
    StreamState :=
  match s.currentPoolId with
  | some pid =>
    TokenStreamManager.startStream { s with reconnectAttempts := 0 } pid outcome
  | none => s

/-- Model of `resetAddonErrorState()`. -/
def TokenStreamManager.resetAddonErrorState (s : StreamState) : StreamState :=
  { s with isAddonErrorDetected := false, addonErrorAttempts := 0 }

inductive StreamEvent
  | start (poolId : String) (outcome : FetchOutcome)
  | fire (outcome : FetchOutcome)
  | stop
  | manualReconnect (outcome : FetchOutcome)
  | reset
deriving DecidableEq, Repr

def streamStep (s : StreamState) : StreamEvent → StreamState
  | .start k o => TokenStreamManager.startStream s k o
  | .fire o => fireOldestRetry s o
  | .stop => TokenStreamManager.stopStream s
  | .manualReconnect o => TokenStreamManager.reconnect s o
  | .reset => TokenStreamManager.resetAddonErrorState s

/-- The state after `startStream("pool1")` fails, followed by `n` pending
automatic retries each of which fails again (`fetch` rejecting every time,
with no explicit stop in between). -/
def failTrace : Nat → StreamState
  | 0 => streamStep streamInit (StreamEvent.start "pool1" FetchOutcome.reject)
  | n + 1 => streamStep (failTrace n) (StreamEvent.fire FetchOutcome.reject)

/-- Claim C3 evaluated on its failing input (a run of consecutive connection
failures for one key): after the initial failure and after every one of `n`
failed automatic retries, another retry is scheduled, always with delay
1000 ms, and `reconnectAttempts` is always 1.  Each retry re-enters
`startStream`, which calls `stopStream`, which resets `reconnectAttempts` to
0, so the `maxReconnectAttempts = 5` cap is never reached, the backoff never
grows past `min(1000 * 2 ** 0, 30000)`, and automatic retries never stop —
contrary to the claim that after 5 exhausted attempts no further automatic
retry is scheduled. -/
theorem claim_C3_reconnect_cap_never_reached :
    ∀ n : Nat,
      (failTrace n).pendingRetries = [("pool1", 1000)] ∧
        (failTrace n).reconnectAttempts = 1 ∧
        (failTrace n).isConnected = false ∧
        (failTrace n).currentPoolId = some "pool1" ∧
        (failTrace n).isAddonErrorDetected = false ∧
        (failTrace n).addonErrorAttempts = 0 := by
  intro n
  induction n with
  | zero => refine ⟨?_, ?_, ?_, ?_, ?_, ?_⟩ <;> decide
  | succ n ih =>
    obtain ⟨h1, h2, h3, h4, h5, h6⟩ := ih
    have hmin : min (1000 * 2 ^ (0:Nat)) 30000 = 1000 := by norm_num
    simp [failTrace, streamStep, fireOldestRetry, h1, h3, h4, h5, h6,
      TokenStreamManager.startStream, TokenStreamManager.stopStream,
      pushStatus, catchReconnect, hmin]

/-- A blocked manager (`isAddonErrorDetected` set, not connected) handles any
`startStream` call without a network attempt, reporting `addon-error`. -/
theorem startStream_blocked (s : StreamState) (h1 : s.isAddonErrorDetected = true)
    (h2 : s.isConnected = false) (k : String) (o : FetchOutcome) :
    (TokenStreamManager.startStream s k o).fetchCount = s.fetchCount ∧
      (TokenStreamManager.startStream s k o).statusLog =
        s.statusLog ++ [StreamStatus.addonError] ∧
      (TokenStreamManager.startStream s k o).isAddonErrorDetected = true ∧
      (TokenStreamManager.startStream s k o).isConnected = false := by
  unfold TokenStreamManager.startStream TokenStreamManager.stopStream
  simp [h1, h2, pushStatus]

def addonFailBody : String := "no addon access"

/-- The state after two consecutive addon-classified connection failures for
key "pool1": the first `startStream` hits a 401 addon response and schedules
a retry; the retry fires and hits the same response. -/
def sBlocked : StreamState :=
  streamStep
    (streamStep streamInit
      (StreamEvent.start "pool1" (FetchOutcome.notOk 401 addonFailBody)))
    (StreamEvent.fire (FetchOutcome.notOk 401 addonFailBody))

/-- Claim C4: after 2 consecutive addon-classified connection failures the
manager permanently sets the addon-blocked flag; every subsequent
`startStream` call (for any key) makes no network attempt and immediately
reports the addon-blocked status; no event other than
`resetAddonErrorState` clears the flag; and `resetAddonErrorState` clears
both the flag and the addon-error attempt counter. -/
theorem claim_C4_addon_block :
    (sBlocked.isAddonErrorDetected = true ∧ sBlocked.isConnected = false ∧
      sBlocked.addonErrorAttempts = 2 ∧ sBlocked.pendingRetries = []) ∧
    (∀ s : StreamState, s.isAddonErrorDetected = true → s.isConnected = false →
      ∀ (k : String) (o : FetchOutcome),
        (TokenStreamManager.startStream s k o).fetchCount = s.fetchCount ∧
          (TokenStreamManager.startStream s k o).statusLog =
            s.statusLog ++ [StreamStatus.addonError]) ∧
    (∀ (s : StreamState) (e : StreamEvent),
      s.isAddonErrorDetected = true → s.isConnected = false →
        e ≠ StreamEvent.reset →
        (streamStep s e).isAddonErrorDetected = true ∧
          (streamStep s e).isConnected = false) ∧
    (∀ s : StreamState,
      (TokenStreamManager.resetAddonErrorState s).isAddonErrorDetected = false ∧
        (TokenStreamManager.resetAddonErrorState s).addonErrorAttempts = 0) := by
  refine ⟨?_, ?_, ?_, ?_⟩
  · refine ⟨?_, ?_, ?_, ?_⟩ <;> decide
  · intro s h1 h2 k o
    have h := startStream_blocked s h1 h2 k o
    exact ⟨h.1, h.2.1⟩
  · intro s e h1 h2 hne
    cases e with
    | start k o =>
      have h := startStream_blocked s h1 h2 k o
      exact ⟨h.2.2.1, h.2.2.2⟩
    | fire o =>
      show (fireOldestRetry s o).isAddonErrorDetected = true ∧
        (fireOldestRetry s o).isConnected = false
      unfold fireOldestRetry
      match hp : s.pendingRetries with
      | [] => exact ⟨h1, h2⟩
      | (pid, d) :: rest =>
        dsimp only
        by_cases hc : s.currentPoolId = some pid
        · rw [if_pos hc]
          have h := startStream_blocked { s with pendingRetries := rest } h1 h2 pid o
          exact ⟨h.2.2.1, h.2.2.2⟩
        · rw [if_neg hc]
          exact ⟨h1, h2⟩
    | stop => exact ⟨h1, rfl⟩
    | manualReconnect o =>
      show (TokenStreamManager.reconnect s o).isAddonErrorDetected = true ∧
        (TokenStreamManager.reconnect s o).isConnected = false
      unfold TokenStreamManager.reconnect
      match hp : s.currentPoolId with
      | none => exact ⟨h1, h2⟩
      | some pid =>
        dsimp only
        have h := startStream_blocked
          { s with currentPoolId := some pid, reconnectAttempts := 0 } h1 h2 pid o
        exact ⟨h.2.2.1, h.2.2.2⟩
    | reset => exact absurd rfl hne
  · intro s
    exact ⟨rfl, rfl⟩

/-- Witness for C4: the concrete blocked state, a concrete blocked
`startStream` call, and a concrete non-reset event preserving the block. -/
theorem claim_C4_addon_block_witness :
    (sBlocked.isAddonErrorDetected = true ∧ sBlocked.isConnected = false) ∧
    ((TokenStreamManager.startStream sBlocked "pool1" FetchOutcome.reject).fetchCount =
        sBlocked.fetchCount ∧
      (TokenStreamManager.startStream sBlocked "pool1" FetchOutcome.reject).statusLog =
        sBlocked.statusLog ++ [StreamStatus.addonError]) ∧
    ((streamStep sBlocked StreamEvent.stop).isAddonErrorDetected = true ∧
      (streamStep sBlocked StreamEvent.stop).isConnected = false) :=
  ⟨⟨by decide, by decide⟩,
    claim_C4_addon_block.2.1 sBlocked (by decide) (by decide) "pool1" FetchOutcome.reject,
    claim_C4_addon_block.2.2.1 sBlocked StreamEvent.stop (by decide) (by decide)
      (by decide)⟩

def sAuth : StreamState :=
  streamStep streamInit (StreamEvent.start "poolA" (FetchOutcome.notOk 401 "bad token"))

/-- Counterexample to claim C7: a streaming connection attempt failing with
an auth-classified 401 surfaces the user-facing message and nevertheless
schedules an automatic retry (the auth branch throws into the same catch
block as any other failure), so the session manager does not require an
external credential change before retrying. -/
theorem claim_C7_counterexample :
    sAuth.shownMessages = ["Invalid API key. Please check your configuration."] ∧
      sAuth.pendingRetries = [("poolA", 1000)] ∧
      sAuth.reconnectAttempts = 1 := by
  refine ⟨?_, ?_, ?_⟩ <;> decide

theorem analyzeError_auth_no_addon (status : Nat) (body url : String)
    (h : (ApiErrorHandler.analyzeError status body url).errorType = ErrorType.auth) :
    (ApiErrorHandler.analyzeError status body url).isAddonError = false := by
  unfold ApiErrorHandler.analyzeError at h ⊢
  split_ifs at h ⊢ <;> simp_all

/-- Claim C7 (amended): a streaming connection attempt failing with an
auth-classified error surfaces a user-facing message and then falls through
to the generic reconnection policy: since `startStream` has just reset the
attempt counter via `stopStream`, a retry is always scheduled, after 1000 ms,
with the counter set to 1.  Auth failures are not exempted from automatic
retries. -/
theorem claim_C7_amended_auth_retry :
    ∀ (s : StreamState) (k : String) (status : Nat) (body : String),
      ¬(s.isConnected = true ∧ s.currentPoolId = some k) →
      s.isAddonErrorDetected = false →
      (ApiErrorHandler.analyzeError status body streamUrl).errorType = ErrorType.auth →
      (TokenStreamManager.startStream s k (.notOk status body)).shownMessages =
          s.shownMessages ++ ["Invalid API key. Please check your configuration."] ∧
        (TokenStreamManager.startStream s k (.notOk status body)).pendingRetries =
          s.pendingRetries ++ [(k, 1000)] ∧
        (TokenStreamManager.startStream s k (.notOk status body)).reconnectAttempts = 1 ∧
        (TokenStreamManager.startStream s k (.notOk status body)).isConnected = false := by
  intro s k status body hcond hflag hauth
  have haddon := analyzeError_auth_no_addon status body streamUrl hauth
  have hmin : min (1000 * 2 ^ (0:Nat)) 30000 = 1000 := by norm_num
  unfold TokenStreamManager.startStream TokenStreamManager.stopStream
  rw [if_neg hcond]
  simp [hflag, haddon, hauth, pushStatus, showMessage, catchReconnect, hmin]

/-- Witness for the amended C7 at the concrete auth failure. -/
theorem claim_C7_amended_auth_retry_witness :
    (¬(streamInit.isConnected = true ∧ streamInit.currentPoolId = some "poolA") ∧
      streamInit.isAddonErrorDetected = false ∧
      (ApiErrorHandler.analyzeError 401 "bad token" streamUrl).errorType =
        ErrorType.auth) ∧
    ((TokenStreamManager.startStream streamInit "poolA"
          (FetchOutcome.notOk 401 "bad token")).shownMessages =
        streamInit.shownMessages ++
          ["Invalid API key. Please check your configuration."] ∧
      (TokenStreamManager.startStream streamInit "poolA"
          (FetchOutcome.notOk 401 "bad token")).pendingRetries =
        streamInit.pendingRetries ++ [("poolA", 1000)] ∧
      (TokenStreamManager.startStream streamInit "poolA"
          (FetchOutcome.notOk 401 "bad token")).reconnectAttempts = 1 ∧
      (TokenStreamManager.startStream streamInit "poolA"
          (FetchOutcome.notOk 401 "bad token")).isConnected = false) :=
  ⟨⟨by decide, by decide, by decide⟩,
    claim_C7_amended_auth_retry streamInit "poolA" 401 "bad token" (by decide)
      (by decide) (by decide)⟩
